import Mathlib

/-!
# Verification of the Technibel A/C IR protocol implementation

A shallow embedding of `src/ir_Technibel.cpp` (IRremoteESP8266, Technibel
protocol support) together with proofs about its behaviour.

The repository snapshot contains only `ir_Technibel.cpp`.  The companion
header (`ir_Technibel.h`, bit-layout constants) and the shared utility
layer (`IRutils` bit primitives, `IRrecv::matchGeneric`) are not part of
the snapshot; those pieces are modelled from the specification document
and are marked `Modelled from the spec:` in their doc comments.

Machine integers are embedded as `Nat` with explicit `% 2^w` where the C
code truncates; pointers+lengths become `List Nat`; the mutable
`IRTechnibelAc` object becomes a record threaded explicitly.
-/

/-! ## Bit-packing primitives (the BitField State Store layer) -/

/-- Modelled from the spec: the raw bit-packing primitive
`writeBits(offset, width, value)` of the BitField State Store (§4.1):
it replaces the bit range `[offset, offset+nbits)` of `dst` with the low
`nbits` bits of `value`, leaving every other bit unchanged.  (The C
implementation `irutils::setBits` masks and ors; the arithmetic form
below writes the same number.) -/
def setBits (dst : Nat) (offset nbits value : Nat) : Nat :=
  dst % 2 ^ offset + value % 2 ^ nbits * 2 ^ offset
    + dst / 2 ^ (offset + nbits) * 2 ^ (offset + nbits)

/-- Modelled from the spec: `readBits(offset, width)` of the BitField
State Store (§4.1), i.e. the C macro `GETBITS64(data, offset, size)`:
extract the bit range `[offset, offset+size)`. -/
def GETBITS64 (data : Nat) (offset size : Nat) : Nat :=
  data / 2 ^ offset % 2 ^ size

/-- Modelled from the spec: `writeBit(pos, value)` (§4.1), the C helper
`irutils::setBit`. -/
def setBit (dst : Nat) (pos : Nat) (value : Bool) : Nat :=
  setBits dst pos 1 (if value then 1 else 0)

/-- Modelled from the spec: `readBit(pos)` (§4.1), the C macro
`GETBIT64(data, position)` used in boolean context. -/
def GETBIT64 (data : Nat) (pos : Nat) : Bool :=
  GETBITS64 data pos 1 == 1

/-- Modelled from the spec: the utility `invertBits(data, nbits)` used by
the Checksum Unit (§4.3): bitwise-invert the low `nbits` bits. -/
def invertBits (data : Nat) (nbits : Nat) : Nat :=
  2 ^ nbits - 1 - data % 2 ^ nbits

/-! ### Laws of the bit primitives -/

theorem setBits_mod_low (s o n v : Nat) :
    setBits s o n v % 2 ^ o = s % 2 ^ o := by
  unfold setBits
  rw [pow_add]
  have h : s % 2 ^ o + v % 2 ^ n * 2 ^ o + s / (2 ^ o * 2 ^ n) * (2 ^ o * 2 ^ n)
      = s % 2 ^ o + 2 ^ o * (v % 2 ^ n + s / (2 ^ o * 2 ^ n) * 2 ^ n) := by ring
  rw [h, Nat.add_mul_mod_self_left, Nat.mod_mod_of_dvd _ dvd_rfl]

theorem setBits_div_high (s o n v : Nat) :
    setBits s o n v / 2 ^ (o + n) = s / 2 ^ (o + n) := by
  unfold setBits
  have hlow : s % 2 ^ o + v % 2 ^ n * 2 ^ o < 2 ^ (o + n) := by
    have h1 : s % 2 ^ o < 2 ^ o := Nat.mod_lt _ (Nat.pos_pow_of_pos o (by norm_num))
    have h2 : v % 2 ^ n ≤ 2 ^ n - 1 :=
      Nat.le_sub_one_of_lt (Nat.mod_lt _ (Nat.pos_pow_of_pos n (by norm_num)))
    have h3 : v % 2 ^ n * 2 ^ o ≤ (2 ^ n - 1) * 2 ^ o :=
      Nat.mul_le_mul_right _ h2
    have h4 : 0 < 2 ^ n := Nat.pos_pow_of_pos n (by norm_num)
    have h5 : (2 ^ n - 1) * 2 ^ o + 2 ^ o = 2 ^ n * 2 ^ o := by
      cases' Nat.exists_eq_add_of_lt h4 with k hk
      simp [hk]
      ring
    have h6 : 2 ^ n * 2 ^ o = 2 ^ (o + n) := by rw [← pow_add, Nat.add_comm]
    omega
  have h : s % 2 ^ o + v % 2 ^ n * 2 ^ o + s / 2 ^ (o + n) * 2 ^ (o + n)
      = (s % 2 ^ o + v % 2 ^ n * 2 ^ o) + 2 ^ (o + n) * (s / 2 ^ (o + n)) := by
    ring
  rw [h, Nat.add_mul_div_left _ _ (Nat.pos_pow_of_pos _ (by norm_num)),
    Nat.div_eq_of_lt hlow, Nat.zero_add]

/-- Reading a bit range entirely below a written range sees the old value. -/
theorem GETBITS64_setBits_of_le (s o n v o' n' : Nat) (h : o' + n' ≤ o) :
    GETBITS64 (setBits s o n v) o' n' = GETBITS64 s o' n' := by
  unfold GETBITS64
  rw [← Nat.mod_mul_right_div_self, ← Nat.mod_mul_right_div_self, ← pow_add]
  have hdvd : 2 ^ (o' + n') ∣ 2 ^ o := pow_dvd_pow 2 h
  have h1 : setBits s o n v % 2 ^ (o' + n') = s % 2 ^ (o' + n') := by
    calc setBits s o n v % 2 ^ (o' + n')
        = setBits s o n v % 2 ^ o % 2 ^ (o' + n') :=
          (Nat.mod_mod_of_dvd _ hdvd).symm
      _ = s % 2 ^ o % 2 ^ (o' + n') := by rw [setBits_mod_low]
      _ = s % 2 ^ (o' + n') := Nat.mod_mod_of_dvd _ hdvd
  rw [h1]

/-- Reading a bit range entirely above a written range sees the old value. -/
theorem GETBITS64_setBits_of_ge (s o n v o' n' : Nat) (h : o + n ≤ o') :
    GETBITS64 (setBits s o n v) o' n' = GETBITS64 s o' n' := by
  unfold GETBITS64
  have hsplit : 2 ^ o' = 2 ^ (o + n) * 2 ^ (o' - (o + n)) := by
    rw [← pow_add]
    congr 1
    omega
  rw [hsplit, ← Nat.div_div_eq_div_mul, ← Nat.div_div_eq_div_mul,
    setBits_div_high]

/-- Reading back exactly the written range yields the written value
(truncated to the field width). -/
theorem GETBITS64_setBits_self (s o n v : Nat) :
    GETBITS64 (setBits s o n v) o n = v % 2 ^ n := by
  unfold GETBITS64 setBits
  have h : s % 2 ^ o + v % 2 ^ n * 2 ^ o + s / 2 ^ (o + n) * 2 ^ (o + n)
      = s % 2 ^ o + 2 ^ o * (v % 2 ^ n + s / 2 ^ (o + n) * 2 ^ n) := by
    rw [pow_add]
    ring
  rw [h, Nat.add_mul_div_left _ _ (Nat.pos_pow_of_pos _ (by norm_num)),
    Nat.div_eq_of_lt (Nat.mod_lt _ (Nat.pos_pow_of_pos o (by norm_num))),
    Nat.zero_add, Nat.add_mul_mod_self_right, Nat.mod_mod_of_dvd _ dvd_rfl]

/-- Rewriting the same range twice keeps only the second write. -/
theorem setBits_setBits_same (s o n v w : Nat) :
    setBits (setBits s o n v) o n w = setBits s o n w := by
  calc setBits (setBits s o n v) o n w
      = setBits s o n v % 2 ^ o + w % 2 ^ n * 2 ^ o
          + setBits s o n v / 2 ^ (o + n) * 2 ^ (o + n) := rfl
    _ = s % 2 ^ o + w % 2 ^ n * 2 ^ o + s / 2 ^ (o + n) * 2 ^ (o + n) := by
        rw [setBits_mod_low, setBits_div_high]
    _ = setBits s o n w := rfl

/-! ## Protocol constants -/

/-- Timing constants, from `ir_Technibel.cpp`. -/
def kTechnibelAcHdrMark : Nat := 8836

def kTechnibelAcHdrSpace : Nat := 4380

def kTechnibelAcBitMark : Nat := 523

def kTechnibelAcOneSpace : Nat := 1696

def kTechnibelAcZeroSpace : Nat := 564

/-- Modelled from the spec: the default trailing message gap
(`kDefaultMessageGap`, defined in the transport layer outside the
snapshot; §4.4 footer treated with a lower-bound-only comparison). -/
def kDefaultMessageGap : Nat := 100000

def kTechnibelAcGap : Nat := kDefaultMessageGap

def kTechnibelAcFreq : Nat := 38000

/-- Header mark/space + footer mark, from `ir_Technibel.cpp`. -/
def kTechnibelAcOverhead : Nat := 3

/-- Modelled from the spec: the protocol's canonical bit count
(`kTechnibelAcBits`, declared in the missing header; §3 gives a 56-bit
record). -/
def kTechnibelAcBits : Nat := 56

/-! Field layout.  Modelled from the spec: the missing header declares a
`(fieldName -> offset, width)` table (§3, §9).  The spec fixes the
widths and the constraint that the checksum byte and the header byte are
the chunks outside the summed payload range
`[kTechnibelAcTimerHoursOffset, kTechnibelAcHeaderOffset)` (§4.3); it
does not fix the individual bit positions, so the positions below are a
concrete disjoint layout consistent with it: checksum in byte 0, payload
fields in bytes 1..3, header in the top byte of the 56-bit record.
The temperature field is given a full byte: the spec's data-model table
says 5 bits, but its own Fahrenheit range [61, 86] (§3, §4.2, §8) needs
at least 7 bits, so a 5-bit field cannot hold the behaviour every other
spec sentence demands. -/

/-- Modelled from the spec: checksum field, 8 bits (§3). -/
def kTechnibelAcChecksumOffset : Nat := 0

def kTechnibelAcChecksumSize : Nat := 8

/-- Modelled from the spec: timer hours field, holds 0..24 (§3). -/
def kTechnibelAcTimerHoursOffset : Nat := 8

def kTechnibelAcHoursSize : Nat := 5

def kTechnibelAcTimerMax : Nat := 24

/-- Modelled from the spec: `timerEnabled` bit (§3). -/
def kTechnibelAcTimerEnableBit : Nat := 13

/-- Modelled from the spec: `swing` bit (§3). -/
def kTechnibelAcSwingBit : Nat := 14

/-- Modelled from the spec: `sleep` bit (§3). -/
def kTechnibelAcSleepBit : Nat := 15

/-- Modelled from the spec: `fanSpeed` field, 2 bits (§3). -/
def kTechnibelAcFanOffset : Nat := 16

def kTechnibelAcFanSize : Nat := 2

/-- Modelled from the spec: `temperatureUnit` bit, Celsius=0 /
Fahrenheit=1 (§3). -/
def kTechnibelAcTempUnitBit : Nat := 18

/-- Modelled from the spec: `power` bit (§3). -/
def kTechnibelAcPowerBit : Nat := 19

/-- Modelled from the spec: `mode` field, 2 bits (§3). -/
def kTechnibelAcModeOffset : Nat := 20

def kTechnibelAcModeSize : Nat := 2

/-- Modelled from the spec: `temperature` field (§3; width 8, see the
layout note above). -/
def kTechnibelAcTempOffset : Nat := 24

def kTechnibelAcTempSize : Nat := 8

/-- Modelled from the spec: fixed protocol signature byte (§3
`headerConstant`). -/
def kTechnibelAcHeaderOffset : Nat := 48

def kTechnibelAcHeaderSize : Nat := 8

def kTechnibelAcHeader : Nat := 0x18

/-- Modelled from the spec: the four defined operating modes, in the
spec's order {Cool, Heat, Dry, Fan} (§3), as 2-bit codes. -/
def kTechnibelAcCool : Nat := 0

def kTechnibelAcHeat : Nat := 1

def kTechnibelAcDry : Nat := 2

def kTechnibelAcFan : Nat := 3

/-- Modelled from the spec: fan speed tiers {Low, Medium, High} (§3), as
2-bit codes with `Low` the smallest legal speed. -/
def kTechnibelAcFanLow : Nat := 1

def kTechnibelAcFanMedium : Nat := 2

def kTechnibelAcFanHigh : Nat := 3

/-- Modelled from the spec: temperature bounds (§4.2). -/
def kTechnibelAcTempMinC : Nat := 16

def kTechnibelAcTempMaxC : Nat := 30

def kTechnibelAcTempMinF : Nat := 61

def kTechnibelAcTempMaxF : Nat := 86

/-! ## The A/C remote object (`IRTechnibelAc`) -/

/-- The mutable state of an `IRTechnibelAc` object: the packed 64-bit
record `remote_state` plus the two session-remembered temperature fields
(declared in the missing header; spec §3 "remembered state").
The transmit pin wiring (`_irsend`) is outside the core. -/
structure IRTechnibelAc where
  remote_state : Nat
  _saved_temp : Nat
  _saved_temp_units : Bool
deriving DecidableEq

/-- `IRTechnibelAc::calcChecksum` (ir_Technibel.cpp:109-119): sum the
8-bit chunks from the timer-hours offset up to (excluding) the header
offset into a `uint8_t` accumulator, invert the 8 bits, add 1. -/
def IRTechnibelAc.calcChecksum (state : Nat) : Nat :=
  let chunkOffsets := List.range' kTechnibelAcTimerHoursOffset
    ((kTechnibelAcHeaderOffset - kTechnibelAcTimerHoursOffset) / 8) 8
  let sum := chunkOffsets.foldl
    (fun sum offset => (sum + GETBITS64 state offset 8) % 2 ^ 8) 0
  (invertBits sum 8 + 1) % 2 ^ 8

/-- `IRTechnibelAc::checksum` (ir_Technibel.cpp:122-125). -/
def IRTechnibelAc.checksum (ac : IRTechnibelAc) : IRTechnibelAc :=
  { ac with remote_state := (setBits ac.remote_state kTechnibelAcChecksumOffset
      kTechnibelAcChecksumSize (IRTechnibelAc.calcChecksum ac.remote_state)) }

/-- `IRTechnibelAc::getRaw` (ir_Technibel.cpp:144-149): write the header
constant, recompute+write the checksum, return the record.  Returns the
value together with the updated object. -/
def IRTechnibelAc.getRaw (ac : IRTechnibelAc) : Nat × IRTechnibelAc :=
  let ac1 := { ac with remote_state := (setBits ac.remote_state
      kTechnibelAcHeaderOffset kTechnibelAcHeaderSize kTechnibelAcHeader) }
  let ac2 := ac1.checksum
  (ac2.remote_state, ac2)

/-- `IRTechnibelAc::setRaw` (ir_Technibel.cpp:153-155). -/
def IRTechnibelAc.setRaw (ac : IRTechnibelAc) (state : Nat) : IRTechnibelAc :=
  { ac with remote_state := state }

/-- `IRTechnibelAc::setPower` (ir_Technibel.cpp:165-167). -/
def IRTechnibelAc.setPower (ac : IRTechnibelAc) («on» : Bool) : IRTechnibelAc :=
  { ac with remote_state := setBit ac.remote_state kTechnibelAcPowerBit «on» }

/-- `IRTechnibelAc::on` (ir_Technibel.cpp:158). -/
def IRTechnibelAc.on (ac : IRTechnibelAc) : IRTechnibelAc := ac.setPower true

/-- `IRTechnibelAc::off` (ir_Technibel.cpp:161). -/
def IRTechnibelAc.off (ac : IRTechnibelAc) : IRTechnibelAc := ac.setPower false

/-- `IRTechnibelAc::getPower` (ir_Technibel.cpp:171-173). -/
def IRTechnibelAc.getPower (ac : IRTechnibelAc) : Bool :=
  GETBIT64 ac.remote_state kTechnibelAcPowerBit

/-- `IRTechnibelAc::setTempUnit` (ir_Technibel.cpp:177-179). -/
def IRTechnibelAc.setTempUnit (ac : IRTechnibelAc) (fahrenheit : Bool) :
    IRTechnibelAc :=
  { ac with remote_state := (setBit ac.remote_state
      kTechnibelAcTempUnitBit fahrenheit) }

/-- `IRTechnibelAc::getTempUnit` (ir_Technibel.cpp:183-185). -/
def IRTechnibelAc.getTempUnit (ac : IRTechnibelAc) : Bool :=
  GETBIT64 ac.remote_state kTechnibelAcTempUnitBit

/-- `IRTechnibelAc::setTemp` (ir_Technibel.cpp:190-205): select the
bounds for the unit, record the unit bit, clamp, remember value+unit,
store the clamped value. -/
def IRTechnibelAc.setTemp (ac : IRTechnibelAc) (degrees : Nat)
    (fahrenheit : Bool) : IRTechnibelAc :=
  let temp_min := if fahrenheit then kTechnibelAcTempMinF else kTechnibelAcTempMinC
  let temp_max := if fahrenheit then kTechnibelAcTempMaxF else kTechnibelAcTempMaxC
  let ac1 := ac.setTempUnit fahrenheit
  let temp := min temp_max (max temp_min degrees)
  { ac1 with
    remote_state := (setBits ac1.remote_state kTechnibelAcTempOffset
      kTechnibelAcTempSize temp),
    _saved_temp := temp,
    _saved_temp_units := fahrenheit }

/-- `IRTechnibelAc::getTemp` (ir_Technibel.cpp:209-211). -/
def IRTechnibelAc.getTemp (ac : IRTechnibelAc) : Nat :=
  GETBITS64 ac.remote_state kTechnibelAcTempOffset kTechnibelAcTempSize

/-- `IRTechnibelAc::getFan` (ir_Technibel.cpp:233-235). -/
def IRTechnibelAc.getFan (ac : IRTechnibelAc) : Nat :=
  GETBITS64 ac.remote_state kTechnibelAcFanOffset kTechnibelAcFanSize

/-- `IRTechnibelAc::getMode` (ir_Technibel.cpp:269-272). -/
def IRTechnibelAc.getMode (ac : IRTechnibelAc) : Nat :=
  GETBITS64 ac.remote_state kTechnibelAcModeOffset kTechnibelAcModeSize

/-- `IRTechnibelAc::setFan` (ir_Technibel.cpp:215-229), with the
source's self-recursion kept: a Dry-mode violation or an out-of-bounds
speed re-enters `setFan` with a corrected speed. -/
def IRTechnibelAc.setFan (ac : IRTechnibelAc) (speed : Nat) : IRTechnibelAc :=
  if ac.getMode = kTechnibelAcDry ∧ speed ≠ kTechnibelAcFanLow then
    ac.setFan kTechnibelAcFanLow
  else if kTechnibelAcFanHigh < speed then
    ac.setFan kTechnibelAcFanHigh
  else if speed < kTechnibelAcFanLow then
    ac.setFan kTechnibelAcFanLow
  else
    { ac with remote_state := (setBits ac.remote_state kTechnibelAcFanOffset
        kTechnibelAcFanSize speed) }
termination_by
  (if ac.getMode = kTechnibelAcDry
    then speed - kTechnibelAcFanLow + (kTechnibelAcFanLow - speed)
    else speed - kTechnibelAcFanHigh + (kTechnibelAcFanLow - speed))
decreasing_by
  all_goals simp_wf
  all_goals unfold kTechnibelAcDry kTechnibelAcFanLow kTechnibelAcFanHigh at *
  all_goals split <;> omega

/-- `IRTechnibelAc::setMode` (ir_Technibel.cpp:276-291), with the
source's self-recursion kept: an unrecognised mode re-enters `setMode`
with `kTechnibelAcCool`.  An accepted mode is stored, then the fan-speed
constraint is re-forced and the remembered temperature restored. -/
def IRTechnibelAc.setMode (ac : IRTechnibelAc) (mode : Nat) : IRTechnibelAc :=
  if mode = kTechnibelAcHeat ∨ mode = kTechnibelAcFan ∨
      mode = kTechnibelAcDry ∨ mode = kTechnibelAcCool then
    let ac1 := { ac with remote_state := (setBits ac.remote_state
        kTechnibelAcModeOffset kTechnibelAcModeSize mode) }
    let ac2 := ac1.setFan ac1.getFan
    ac2.setTemp ac2._saved_temp ac2._saved_temp_units
  else
    ac.setMode kTechnibelAcCool
termination_by
  (if mode = kTechnibelAcHeat ∨ mode = kTechnibelAcFan ∨
      mode = kTechnibelAcDry ∨ mode = kTechnibelAcCool then 0 else 1)
decreasing_by
  all_goals simp_wf
  all_goals unfold kTechnibelAcHeat kTechnibelAcFan kTechnibelAcDry kTechnibelAcCool at *
  all_goals split <;> omega

/-- `IRTechnibelAc::setSwing` (ir_Technibel.cpp:326-328). -/
def IRTechnibelAc.setSwing (ac : IRTechnibelAc) («on» : Bool) : IRTechnibelAc :=
  { ac with remote_state := setBit ac.remote_state kTechnibelAcSwingBit «on» }

/-- `IRTechnibelAc::getSwing` (ir_Technibel.cpp:332-334). -/
def IRTechnibelAc.getSwing (ac : IRTechnibelAc) : Bool :=
  GETBIT64 ac.remote_state kTechnibelAcSwingBit

/-- `IRTechnibelAc::setSleep` (ir_Technibel.cpp:360-362). -/
def IRTechnibelAc.setSleep (ac : IRTechnibelAc) («on» : Bool) : IRTechnibelAc :=
  { ac with remote_state := setBit ac.remote_state kTechnibelAcSleepBit «on» }

/-- `IRTechnibelAc::getSleep` (ir_Technibel.cpp:366-368). -/
def IRTechnibelAc.getSleep (ac : IRTechnibelAc) : Bool :=
  GETBIT64 ac.remote_state kTechnibelAcSleepBit

/-- `IRTechnibelAc::setTimerEnabled` (ir_Technibel.cpp:372-374). -/
def IRTechnibelAc.setTimerEnabled (ac : IRTechnibelAc) («on» : Bool) :
    IRTechnibelAc :=
  { ac with remote_state := (setBit ac.remote_state
      kTechnibelAcTimerEnableBit «on») }

/-- `IRTechnibelAc::getTimerEnabled` (ir_Technibel.cpp:378-380). -/
def IRTechnibelAc.getTimerEnabled (ac : IRTechnibelAc) : Bool :=
  GETBIT64 ac.remote_state kTechnibelAcTimerEnableBit

/-- `IRTechnibelAc::setTimer` (ir_Technibel.cpp:386-393).  The hour
count is computed into a `uint8_t` (`hours = nr_of_mins / 60` truncates
mod 256), clamped to the protocol maximum, stored, and the enable bit is
derived from the stored value. -/
def IRTechnibelAc.setTimer (ac : IRTechnibelAc) (nr_of_mins : Nat) :
    IRTechnibelAc :=
  let hours := nr_of_mins / 60 % 2 ^ 8
  let value := min kTechnibelAcTimerMax hours
  let ac1 := { ac with remote_state := (setBits ac.remote_state
      kTechnibelAcTimerHoursOffset kTechnibelAcHoursSize value) }
  ac1.setTimerEnabled (decide (0 < value))

/-- `IRTechnibelAc::getTimer` (ir_Technibel.cpp:397-404). -/
def IRTechnibelAc.getTimer (ac : IRTechnibelAc) : Nat :=
  if ac.getTimerEnabled then
    GETBITS64 ac.remote_state kTechnibelAcTimerHoursOffset
      kTechnibelAcHoursSize * 60
  else 0

/-- `IRTechnibelAc::stateReset` (ir_Technibel.cpp:129-140). -/
def IRTechnibelAc.stateReset (ac : IRTechnibelAc) : IRTechnibelAc :=
  let ac := { ac with _saved_temp := 20, _saved_temp_units := false }
  let ac := ac.off
  let ac := ac.setTemp ac._saved_temp false
  let ac := ac.setTempUnit ac._saved_temp_units
  let ac := ac.setMode kTechnibelAcCool
  let ac := ac.setFan kTechnibelAcFanLow
  let ac := ac.setSwing false
  ac.setSleep false

/-- The object produced by the class constructor
(ir_Technibel.cpp:91-93): members zero-initialised, then `stateReset`. -/
def IRTechnibelAc.mkDefault : IRTechnibelAc :=
  IRTechnibelAc.stateReset ⟨0, 0, false⟩

/-! ## Decode side -/

/-- Modelled from the spec: the protocol identifier tag reported on a
successful decode (§4.4); `UNKNOWN` stands for every other tag. -/
inductive decode_type_t where
  | UNKNOWN
  | TECHNIBEL_AC
deriving DecidableEq

/-- The fields of `decode_results` the Technibel decoder touches: the
captured timing buffer (`rawbuf`; its length plays the role of `rawlen`)
and the output fields written on success. -/
structure decode_results where
  rawbuf : List Nat
  decode_type : decode_type_t
  bits : Nat
  value : Nat
  address : Nat
  command : Nat
deriving DecidableEq

/-- Modelled from the spec: receiver defaults — the match tolerance
percentage and the excess-margin constant applied to mark comparisons
(§6). -/
def kTolerance : Nat := 25

def kMarkExcess : Nat := 50

/-- Modelled from the spec: a measured duration matches a desired one
when it lies within the symmetric percentage tolerance window (§6). -/
def matchWithinTol (measured desired tolerance : Nat) : Bool :=
  decide (desired * (100 - tolerance) ≤ measured * 100 ∧
    measured * 100 ≤ desired * (100 + tolerance))

/-- Modelled from the spec: mark comparison, with the uniform
excess-margin constant added to the expected mark (§6). -/
def matchMark (measured desired tolerance excess : Nat) : Bool :=
  matchWithinTol measured (desired + excess) tolerance

/-- Modelled from the spec: space comparison, excess margin removed (§6). -/
def matchSpace (measured desired tolerance excess : Nat) : Bool :=
  matchWithinTol measured (desired - excess) tolerance

/-- Modelled from the spec: the "relaxed lower-bound-only comparison
typical of trailing gaps" (§4.4, decode contract item 5). -/
def matchAtLeast (measured desired tolerance : Nat) : Bool :=
  decide (desired * (100 - tolerance) ≤ measured * 100)

/-- Modelled from the spec: the data-bit loop of the generic matcher
(§4.4, item 4): each bit is a fixed-duration mark followed by a long
space (bit=1) or a short space (bit=0), scanned least-significant-bit
first.  Returns the decoded value and the unconsumed tail. -/
def matchData (buf : List Nat) (nbits : Nat)
    (bitMark oneSpace zeroSpace tolerance excess : Nat) :
    Option (Nat × List Nat) :=
  match nbits with
  | 0 => some (0, buf)
  | n + 1 =>
    match buf with
    | m :: s :: rest =>
      if matchMark m bitMark tolerance excess then
        if matchSpace s oneSpace tolerance excess then
          match matchData rest n bitMark oneSpace zeroSpace tolerance excess with
          | some (v, rest2) => some (2 * v + 1, rest2)
          | none => none
        else if matchSpace s zeroSpace tolerance excess then
          match matchData rest n bitMark oneSpace zeroSpace tolerance excess with
          | some (v, rest2) => some (2 * v, rest2)
          | none => none
        else none
      else none
    | _ => none

/-- Modelled from the spec: `IRrecv::matchGeneric` for a
header+data+footer message (§4.4 decode contract): it needs at least
`2*nbits + 3` entries (header mark+space, one mark/space pair per bit,
footer mark — the trailing gap may be absent when the capture ends),
matches the header pair, the data pairs, the footer mark and, when
present, the trailing gap with an at-least comparison.  Returns the
decoded value on success, `none` on any mismatch. -/
def matchGeneric (buf : List Nat) (nbits : Nat)
    (hdrMark hdrSpace bitMark oneSpace zeroSpace footerMark gap
     tolerance excess : Nat) : Option Nat :=
  if buf.length < 2 * nbits + 3 then none
  else
    match buf with
    | hm :: hs :: rest =>
      if matchMark hm hdrMark tolerance excess &&
          matchSpace hs hdrSpace tolerance excess then
        match matchData rest nbits bitMark oneSpace zeroSpace tolerance excess with
        | some (v, fm :: tail) =>
          if matchMark fm footerMark tolerance excess then
            match tail with
            | [] => some v
            | g :: _ => if matchAtLeast g gap tolerance then some v else none
          else none
        | _ => none
      else none
    | _ => none

/-- `IRrecv::decodeTechnibelAc` (ir_Technibel.cpp:57-84).  The receiver
state the C method reads is made explicit: `results.rawbuf` is the
capture (its length playing the role of `rawlen`), `tolerance` is the
member `_tolerance`.  The C length guard computes
`2 * nbits + kTechnibelAcOverhead - offset` in `int` arithmetic, hence
the `Int` cast.  Returns the success flag together with the (possibly
updated) results structure. -/
def decodeTechnibelAc (results : decode_results) (offset nbits : Nat)
    (strict : Bool) (tolerance : Nat) : Bool × decode_results :=
  if (results.rawbuf.length : Int) <
      2 * (nbits : Int) + (kTechnibelAcOverhead : Int) - (offset : Int) then
    (false, results)
  else if strict && nbits != kTechnibelAcBits then
    (false, results)
  else
    match matchGeneric (results.rawbuf.drop offset) nbits
        kTechnibelAcHdrMark kTechnibelAcHdrSpace kTechnibelAcBitMark
        kTechnibelAcOneSpace kTechnibelAcZeroSpace kTechnibelAcBitMark
        kTechnibelAcGap tolerance kMarkExcess with
    | none => (false, results)
    | some data =>
      (true, { results with
        decode_type := decode_type_t.TECHNIBEL_AC,
        bits := nbits,
        value := data,
        command := 0,
        address := 0 })

/-! ## Unfolding the recursive setters

`setFan` and `setMode` re-enter themselves at most once, with an
argument that lands in the non-recursive branch; the next two lemmas
give the resulting closed forms and are the workhorses for everything
below. -/

theorem IRTechnibelAc.setFan_closed (ac : IRTechnibelAc) (speed : Nat) :
    ac.setFan speed = { ac with remote_state :=
      (setBits ac.remote_state kTechnibelAcFanOffset kTechnibelAcFanSize
        (if ac.getMode = kTechnibelAcDry ∧ speed ≠ kTechnibelAcFanLow then
          kTechnibelAcFanLow
         else if kTechnibelAcFanHigh < speed then kTechnibelAcFanHigh
         else if speed < kTechnibelAcFanLow then kTechnibelAcFanLow
         else speed)) } := by
  rw [IRTechnibelAc.setFan]
  split_ifs with h1 h2 h3
  · rw [IRTechnibelAc.setFan]
    rw [if_neg (by simp), if_neg (by decide), if_neg (by decide)]
  · rw [IRTechnibelAc.setFan]
    rw [if_neg (by simp only [kTechnibelAcFanHigh, kTechnibelAcFanLow] at *; omega),
      if_neg (by decide), if_neg (by decide)]
  · rw [IRTechnibelAc.setFan]
    rw [if_neg (by simp), if_neg (by decide), if_neg (by decide)]
  · rfl

theorem IRTechnibelAc.setMode_closed (ac : IRTechnibelAc) (mode : Nat) :
    ac.setMode mode =
      (let m := if mode = kTechnibelAcHeat ∨ mode = kTechnibelAcFan ∨
          mode = kTechnibelAcDry ∨ mode = kTechnibelAcCool then mode
        else kTechnibelAcCool
       let ac1 := { ac with remote_state := (setBits ac.remote_state
          kTechnibelAcModeOffset kTechnibelAcModeSize m) }
       let ac2 := ac1.setFan ac1.getFan
       ac2.setTemp ac2._saved_temp ac2._saved_temp_units) := by
  rw [IRTechnibelAc.setMode]
  split_ifs with h1
  · rfl
  · rw [IRTechnibelAc.setMode, if_pos (by decide)]

/-! ## Accessor-level helper lemmas -/

theorem GETBITS64_setBit_of_ge (s pos o' n' : Nat) (v : Bool)
    (h : pos + 1 ≤ o') :
    GETBITS64 (setBit s pos v) o' n' = GETBITS64 s o' n' :=
  GETBITS64_setBits_of_ge s pos 1 _ o' n' h

theorem GETBITS64_setBit_of_le (s pos o' n' : Nat) (v : Bool)
    (h : o' + n' ≤ pos) :
    GETBITS64 (setBit s pos v) o' n' = GETBITS64 s o' n' :=
  GETBITS64_setBits_of_le s pos 1 _ o' n' h

theorem GETBIT64_setBits_of_ge (s o n v pos : Nat) (h : o + n ≤ pos) :
    GETBIT64 (setBits s o n v) pos = GETBIT64 s pos := by
  unfold GETBIT64
  rw [GETBITS64_setBits_of_ge s o n v pos 1 h]

theorem GETBIT64_setBits_of_le (s o n v pos : Nat) (h : pos + 1 ≤ o) :
    GETBIT64 (setBits s o n v) pos = GETBIT64 s pos := by
  unfold GETBIT64
  rw [GETBITS64_setBits_of_le s o n v pos 1 h]

theorem GETBIT64_setBit_self (s pos : Nat) (v : Bool) :
    GETBIT64 (setBit s pos v) pos = v := by
  unfold GETBIT64 setBit
  rw [GETBITS64_setBits_self]
  cases v <;> rfl

theorem IRTechnibelAc.getTemp_setTemp (ac : IRTechnibelAc) (d : Nat)
    (u : Bool) :
    (ac.setTemp d u).getTemp =
      (if u then min kTechnibelAcTempMaxF (max kTechnibelAcTempMinF d)
       else min kTechnibelAcTempMaxC (max kTechnibelAcTempMinC d)) := by
  cases u <;>
    · simp only [IRTechnibelAc.setTemp, IRTechnibelAc.getTemp,
        IRTechnibelAc.setTempUnit, Bool.false_eq_true, if_false, if_true]
      rw [GETBITS64_setBits_self]
      apply Nat.mod_eq_of_lt
      simp only [kTechnibelAcTempMaxC, kTechnibelAcTempMinC,
        kTechnibelAcTempMaxF, kTechnibelAcTempMinF, kTechnibelAcTempSize]
      omega

theorem IRTechnibelAc.saved_temp_setTemp (ac : IRTechnibelAc) (d : Nat)
    (u : Bool) :
    (ac.setTemp d u)._saved_temp =
      (if u then min kTechnibelAcTempMaxF (max kTechnibelAcTempMinF d)
       else min kTechnibelAcTempMaxC (max kTechnibelAcTempMinC d)) := by
  cases u <;> rfl

theorem IRTechnibelAc.saved_units_setTemp (ac : IRTechnibelAc) (d : Nat)
    (u : Bool) : (ac.setTemp d u)._saved_temp_units = u := by
  cases u <;> rfl

theorem IRTechnibelAc.getTempUnit_setTemp (ac : IRTechnibelAc) (d : Nat)
    (u : Bool) : (ac.setTemp d u).getTempUnit = u := by
  cases u <;>
    · simp only [IRTechnibelAc.setTemp, IRTechnibelAc.getTempUnit,
        IRTechnibelAc.setTempUnit]
      rw [GETBIT64_setBits_of_le _ _ _ _ _ (by decide),
        GETBIT64_setBit_self]

theorem IRTechnibelAc.getMode_setTemp (ac : IRTechnibelAc) (d : Nat)
    (u : Bool) : (ac.setTemp d u).getMode = ac.getMode := by
  simp only [IRTechnibelAc.setTemp, IRTechnibelAc.getMode,
    IRTechnibelAc.setTempUnit]
  rw [GETBITS64_setBits_of_le _ _ _ _ _ _ (by decide),
    GETBITS64_setBit_of_ge _ _ _ _ _ (by decide)]

theorem IRTechnibelAc.getFan_setTemp (ac : IRTechnibelAc) (d : Nat)
    (u : Bool) : (ac.setTemp d u).getFan = ac.getFan := by
  simp only [IRTechnibelAc.setTemp, IRTechnibelAc.getFan,
    IRTechnibelAc.setTempUnit]
  rw [GETBITS64_setBits_of_le _ _ _ _ _ _ (by decide),
    GETBITS64_setBit_of_le _ _ _ _ _ (by decide)]

theorem IRTechnibelAc.getTemp_setTempUnit (ac : IRTechnibelAc) (u : Bool) :
    (ac.setTempUnit u).getTemp = ac.getTemp := by
  simp only [IRTechnibelAc.setTempUnit, IRTechnibelAc.getTemp]
  rw [GETBITS64_setBit_of_ge _ _ _ _ _ (by decide)]

theorem IRTechnibelAc.getTempUnit_setTempUnit (ac : IRTechnibelAc)
    (u : Bool) : (ac.setTempUnit u).getTempUnit = u := by
  simp only [IRTechnibelAc.setTempUnit, IRTechnibelAc.getTempUnit]
  rw [GETBIT64_setBit_self]

theorem IRTechnibelAc.saved_temp_setFan (ac : IRTechnibelAc) (s : Nat) :
    (ac.setFan s)._saved_temp = ac._saved_temp := by
  rw [IRTechnibelAc.setFan_closed]

theorem IRTechnibelAc.saved_units_setFan (ac : IRTechnibelAc) (s : Nat) :
    (ac.setFan s)._saved_temp_units = ac._saved_temp_units := by
  rw [IRTechnibelAc.setFan_closed]

theorem IRTechnibelAc.getTemp_setFan (ac : IRTechnibelAc) (s : Nat) :
    (ac.setFan s).getTemp = ac.getTemp := by
  rw [IRTechnibelAc.setFan_closed]
  simp only [IRTechnibelAc.getTemp]
  rw [GETBITS64_setBits_of_ge _ _ _ _ _ _ (by decide)]

theorem IRTechnibelAc.getTempUnit_setFan (ac : IRTechnibelAc) (s : Nat) :
    (ac.setFan s).getTempUnit = ac.getTempUnit := by
  rw [IRTechnibelAc.setFan_closed]
  simp only [IRTechnibelAc.getTempUnit]
  rw [GETBIT64_setBits_of_ge _ _ _ _ _ (by decide)]

theorem IRTechnibelAc.getMode_setFan (ac : IRTechnibelAc) (s : Nat) :
    (ac.setFan s).getMode = ac.getMode := by
  rw [IRTechnibelAc.setFan_closed]
  simp only [IRTechnibelAc.getMode]
  rw [GETBITS64_setBits_of_ge _ _ _ _ _ _ (by decide)]

theorem IRTechnibelAc.getFan_setFan (ac : IRTechnibelAc) (s : Nat) :
    (ac.setFan s).getFan =
      (if ac.getMode = kTechnibelAcDry then kTechnibelAcFanLow
       else min kTechnibelAcFanHigh (max kTechnibelAcFanLow s)) := by
  rw [IRTechnibelAc.setFan_closed]
  simp only [IRTechnibelAc.getFan]
  rw [GETBITS64_setBits_self]
  by_cases hd : ac.getMode = kTechnibelAcDry
  · simp only [hd, if_true]
    by_cases hs : s = kTechnibelAcFanLow
    · simp only [hs, ne_eq, not_true_eq_false, and_false, if_false]
      rw [if_neg (by decide), if_neg (by decide)]
      rfl
    · simp only [ne_eq, hs, not_false_eq_true, and_true, if_pos]
      rfl
  · simp only [hd, false_and, if_false]
    simp only [kTechnibelAcFanHigh, kTechnibelAcFanLow, kTechnibelAcFanSize]
    split_ifs <;> omega

theorem IRTechnibelAc.getMode_setMode (ac : IRTechnibelAc) (m : Nat) :
    (ac.setMode m).getMode =
      (if m = kTechnibelAcHeat ∨ m = kTechnibelAcFan ∨
          m = kTechnibelAcDry ∨ m = kTechnibelAcCool then m
       else kTechnibelAcCool) := by
  rw [IRTechnibelAc.setMode_closed]
  simp only [IRTechnibelAc.getMode_setTemp, IRTechnibelAc.getMode_setFan]
  simp only [IRTechnibelAc.getMode]
  rw [GETBITS64_setBits_self]
  split_ifs with h
  · simp only [kTechnibelAcHeat, kTechnibelAcFan, kTechnibelAcDry,
      kTechnibelAcCool, kTechnibelAcModeSize] at *
    omega
  · rfl

/-! ## The claims -/

/-- Claim C2: for every record, `calcChecksum` returns the byte obtained
by summing modulo 256 the 8-bit chunks at the offsets from the
timer-hours field's start offset (8, inclusive) up to the header field's
start offset (48, exclusive) — i.e. the chunks at 8, 16, 24, 32, 40 —
bitwise-inverting that 8-bit sum and adding 1 (as a byte); the header
chunk and the checksum field itself are excluded from the sum. -/
theorem technibel_claim_C2_calcChecksum (state : Nat) :
    IRTechnibelAc.calcChecksum state =
      (invertBits ((GETBITS64 state kTechnibelAcTimerHoursOffset 8 +
          GETBITS64 state 16 8 + GETBITS64 state 24 8 +
          GETBITS64 state 32 8 + GETBITS64 state 40 8) % 2 ^ 8) 8 + 1)
        % 2 ^ 8 := by
  have hlist : List.range' (8 : Nat)
      ((kTechnibelAcHeaderOffset - 8) / 8) 8 = [8, 16, 24, 32, 40] := rfl
  simp only [IRTechnibelAc.calcChecksum, kTechnibelAcTimerHoursOffset,
    hlist, List.foldl_cons, List.foldl_nil, invertBits]
  omega

/-- Claim C3: `setTemp` clamps its input boundary-inclusively into
[16, 30] for Celsius and [61, 86] for Fahrenheit, storing the nearest
bound for out-of-range inputs; `getTemp` reads the clamped value back. -/
theorem technibel_claim_C3_setTemp_clamp (ac : IRTechnibelAc) (d : Nat) :
    ((ac.setTemp d false).getTemp = min 30 (max 16 d) ∧
      16 ≤ (ac.setTemp d false).getTemp ∧ (ac.setTemp d false).getTemp ≤ 30) ∧
    ((ac.setTemp d true).getTemp = min 86 (max 61 d) ∧
      61 ≤ (ac.setTemp d true).getTemp ∧ (ac.setTemp d true).getTemp ≤ 86) := by
  simp only [IRTechnibelAc.getTemp_setTemp, Bool.false_eq_true, if_false,
    if_true, kTechnibelAcTempMaxC, kTechnibelAcTempMinC,
    kTechnibelAcTempMaxF, kTechnibelAcTempMinF, true_and]
  omega

/-- Claim C4: when the current mode is Dry, `setFan` stores Low whatever
speed was requested (in particular after `setMode(Dry); setFan(High)`
the fan reads back Low); in any other mode the requested speed is
clamped into [Low, High]. -/
theorem technibel_claim_C4_setFan_dry (ac : IRTechnibelAc) (s : Nat) :
    ((ac.setFan s).getFan =
      (if ac.getMode = kTechnibelAcDry then kTechnibelAcFanLow
       else min kTechnibelAcFanHigh (max kTechnibelAcFanLow s))) ∧
    ((ac.setMode kTechnibelAcDry).setFan kTechnibelAcFanHigh).getFan =
      kTechnibelAcFanLow := by
  refine ⟨IRTechnibelAc.getFan_setFan ac s, ?_⟩
  have hm : (ac.setMode kTechnibelAcDry).getMode = kTechnibelAcDry := by
    rw [IRTechnibelAc.getMode_setMode]
    decide
  rw [IRTechnibelAc.getFan_setFan, if_pos hm]

/-- Claim C5 counterexample: the hour count is computed into a
`uint8_t`, so `setTimer(15360)` (256 hours requested) truncates
`15360 / 60 = 256` to `0` and clears the timer, whereas the claim
(store `min(24, minutes/60) = 24` hours, enable, read back `24*60`)
demands 1440 minutes. -/
theorem technibel_claim_C5_counterexample :
    (IRTechnibelAc.setTimer ⟨0, 0, false⟩ 15360).getTimer = 0 ∧
    (IRTechnibelAc.setTimer ⟨0, 0, false⟩ 15360).getTimerEnabled = false ∧
    min kTechnibelAcTimerMax (15360 / 60) * 60 = 1440 := by
  decide

/-- Claim C5 (amended): `setTimer` stores
`min(24, (minutes / 60) mod 256)` whole hours — the hour count passes
through a `uint8_t` — and sets the enable bit exactly when the stored
hours are positive; `getTimer` returns the stored hours times 60 when
the enable bit is set and 0 otherwise (so `setTimer 90` reads back 60
and `setTimer 0` reads back disabled/0). -/
theorem technibel_claim_C5_setTimer (ac : IRTechnibelAc) (mins : Nat) :
    (ac.setTimer mins).getTimer =
      min kTechnibelAcTimerMax (mins / 60 % 2 ^ 8) * 60 ∧
    ((ac.setTimer mins).getTimerEnabled = true ↔
      0 < min kTechnibelAcTimerMax (mins / 60 % 2 ^ 8)) := by
  simp only [IRTechnibelAc.setTimer, IRTechnibelAc.getTimer,
    IRTechnibelAc.getTimerEnabled, IRTechnibelAc.setTimerEnabled]
  rw [GETBIT64_setBit_self,
    GETBITS64_setBit_of_le _ _ _ _ _ (by decide),
    GETBITS64_setBits_self]
  have hlt : min kTechnibelAcTimerMax (mins / 60 % 2 ^ 8) %
      2 ^ kTechnibelAcHoursSize =
      min kTechnibelAcTimerMax (mins / 60 % 2 ^ 8) := by
    apply Nat.mod_eq_of_lt
    simp only [kTechnibelAcTimerMax, kTechnibelAcHoursSize]
    omega
  rw [hlt]
  constructor
  · by_cases h : 0 < min kTechnibelAcTimerMax (mins / 60 % 2 ^ 8)
    · rw [if_pos (decide_eq_true h)]
    · rw [if_neg (by simp only [decide_eq_true_eq]; exact h)]
      omega
  · simp

/-! ## Checksum/header idempotence (claim C9) -/

/-- Writing a value that a range already holds is the identity. -/
theorem setBits_eq_self_of_getBits (s o n v : Nat)
    (h : GETBITS64 s o n = v % 2 ^ n) : setBits s o n v = s := by
  unfold GETBITS64 at h
  unfold setBits
  rw [← h]
  have h2 : s % 2 ^ (o + n) % 2 ^ o = s % 2 ^ o :=
    Nat.mod_mod_of_dvd _ (pow_dvd_pow 2 (Nat.le_add_right o n))
  have h3 : s % 2 ^ (o + n) / 2 ^ o = s / 2 ^ o % 2 ^ n := by
    rw [pow_add]
    exact Nat.mod_mul_right_div_self s (2 ^ o) (2 ^ n)
  have h1 : s % 2 ^ (o + n) = s / 2 ^ o % 2 ^ n * 2 ^ o + s % 2 ^ o := by
    calc s % 2 ^ (o + n)
        = 2 ^ o * (s % 2 ^ (o + n) / 2 ^ o) + s % 2 ^ (o + n) % 2 ^ o :=
          (Nat.div_add_mod _ _).symm
      _ = s / 2 ^ o % 2 ^ n * 2 ^ o + s % 2 ^ o := by rw [h2, h3]; ring
  calc s % 2 ^ o + s / 2 ^ o % 2 ^ n * 2 ^ o + s / 2 ^ (o + n) * 2 ^ (o + n)
      = s / 2 ^ o % 2 ^ n * 2 ^ o + s % 2 ^ o
        + s / 2 ^ (o + n) * 2 ^ (o + n) := by ring
    _ = s % 2 ^ (o + n) + s / 2 ^ (o + n) * 2 ^ (o + n) := by rw [h1]
    _ = 2 ^ (o + n) * (s / 2 ^ (o + n)) + s % 2 ^ (o + n) := by ring
    _ = s := Nat.div_add_mod _ _

/-- `calcChecksum`, evaluated: the byte-chunk loop unrolled. -/
theorem IRTechnibelAc.calcChecksum_eval (state : Nat) :
    IRTechnibelAc.calcChecksum state =
      (invertBits ((GETBITS64 state 8 8 + GETBITS64 state 16 8 +
          GETBITS64 state 24 8 + GETBITS64 state 32 8 +
          GETBITS64 state 40 8) % 2 ^ 8) 8 + 1) % 2 ^ 8 := by
  have hlist : List.range' (8 : Nat)
      ((kTechnibelAcHeaderOffset - 8) / 8) 8 = [8, 16, 24, 32, 40] := rfl
  simp only [IRTechnibelAc.calcChecksum, kTechnibelAcTimerHoursOffset,
    hlist, List.foldl_cons, List.foldl_nil, invertBits]
  omega

/-- The checksum ignores writes to the header byte. -/
theorem IRTechnibelAc.calcChecksum_setBits_header (s v : Nat) :
    IRTechnibelAc.calcChecksum (setBits s kTechnibelAcHeaderOffset
      kTechnibelAcHeaderSize v) = IRTechnibelAc.calcChecksum s := by
  rw [IRTechnibelAc.calcChecksum_eval, IRTechnibelAc.calcChecksum_eval,
    GETBITS64_setBits_of_le _ _ _ _ _ _ (by decide),
    GETBITS64_setBits_of_le _ _ _ _ _ _ (by decide),
    GETBITS64_setBits_of_le _ _ _ _ _ _ (by decide),
    GETBITS64_setBits_of_le _ _ _ _ _ _ (by decide),
    GETBITS64_setBits_of_le _ _ _ _ _ _ (by decide)]

/-- The checksum ignores writes to the checksum byte itself. -/
theorem IRTechnibelAc.calcChecksum_setBits_checksum (s v : Nat) :
    IRTechnibelAc.calcChecksum (setBits s kTechnibelAcChecksumOffset
      kTechnibelAcChecksumSize v) = IRTechnibelAc.calcChecksum s := by
  rw [IRTechnibelAc.calcChecksum_eval, IRTechnibelAc.calcChecksum_eval,
    GETBITS64_setBits_of_ge _ _ _ _ _ _ (by decide),
    GETBITS64_setBits_of_ge _ _ _ _ _ _ (by decide),
    GETBITS64_setBits_of_ge _ _ _ _ _ _ (by decide),
    GETBITS64_setBits_of_ge _ _ _ _ _ _ (by decide),
    GETBITS64_setBits_of_ge _ _ _ _ _ _ (by decide)]

/-- The record value produced by `getRaw` as a function of the record:
header written, then checksum of the header-bearing record written. -/
def encodeState (s : Nat) : Nat :=
  setBits (setBits s kTechnibelAcHeaderOffset kTechnibelAcHeaderSize
      kTechnibelAcHeader)
    kTechnibelAcChecksumOffset kTechnibelAcChecksumSize
    (IRTechnibelAc.calcChecksum (setBits s kTechnibelAcHeaderOffset
      kTechnibelAcHeaderSize kTechnibelAcHeader))

theorem IRTechnibelAc.getRaw_eq_encodeState (x : IRTechnibelAc) :
    x.getRaw = (encodeState x.remote_state,
      { x with remote_state := encodeState x.remote_state }) := rfl

theorem IRTechnibelAc.calcChecksum_encodeState (s : Nat) :
    IRTechnibelAc.calcChecksum (encodeState s) =
      IRTechnibelAc.calcChecksum s := by
  unfold encodeState
  rw [IRTechnibelAc.calcChecksum_setBits_checksum,
    IRTechnibelAc.calcChecksum_setBits_header]

theorem encodeState_idem (s : Nat) :
    encodeState (encodeState s) = encodeState s := by
  have hH : setBits (encodeState s) kTechnibelAcHeaderOffset
      kTechnibelAcHeaderSize kTechnibelAcHeader = encodeState s := by
    apply setBits_eq_self_of_getBits
    unfold encodeState
    rw [GETBITS64_setBits_of_ge _ _ _ _ _ _ (by decide),
      GETBITS64_setBits_self]
  have step1 : encodeState (encodeState s) = setBits (encodeState s)
      kTechnibelAcChecksumOffset kTechnibelAcChecksumSize
      (IRTechnibelAc.calcChecksum (encodeState s)) := by
    show setBits (setBits (encodeState s) kTechnibelAcHeaderOffset
        kTechnibelAcHeaderSize kTechnibelAcHeader)
      kTechnibelAcChecksumOffset kTechnibelAcChecksumSize
      (IRTechnibelAc.calcChecksum (setBits (encodeState s)
        kTechnibelAcHeaderOffset kTechnibelAcHeaderSize
        kTechnibelAcHeader)) = _
    rw [hH]
  have hc1 : IRTechnibelAc.calcChecksum (setBits s kTechnibelAcHeaderOffset
      kTechnibelAcHeaderSize kTechnibelAcHeader) =
      IRTechnibelAc.calcChecksum s :=
    IRTechnibelAc.calcChecksum_setBits_header s kTechnibelAcHeader
  rw [step1, IRTechnibelAc.calcChecksum_encodeState]
  unfold encodeState
  rw [hc1]
  exact setBits_setBits_same _ _ _ _ _

/-- Claim C9: writing the header constant and the checksum does not
change the payload chunks the checksum is computed over — the checksum
of the record after `getRaw` equals the checksum of the record before —
and a second `getRaw` with no intervening mutation returns the same
64-bit value and leaves the object unchanged. -/
theorem technibel_claim_C9_getRaw_idem (ac : IRTechnibelAc) :
    IRTechnibelAc.calcChecksum ac.getRaw.2.remote_state =
      IRTechnibelAc.calcChecksum ac.remote_state ∧
    ac.getRaw.2.getRaw.1 = ac.getRaw.1 ∧
    ac.getRaw.2.getRaw.2 = ac.getRaw.2 := by
  simp only [IRTechnibelAc.getRaw_eq_encodeState]
  refine ⟨IRTechnibelAc.calcChecksum_encodeState ac.remote_state, ?_, ?_⟩
  · exact encodeState_idem ac.remote_state
  · rw [encodeState_idem ac.remote_state]

/-! ## Decode claims -/

theorem matchGeneric_none_of_short (buf : List Nat)
    (nbits a b c d e f g tol ex : Nat)
    (h : buf.length < 2 * nbits + 3) :
    matchGeneric buf nbits a b c d e f g tol ex = none := by
  unfold matchGeneric
  rw [if_pos h]

/-- Claim C1: whenever fewer than `2*nbits + 3` timing entries are
available from the start offset (header mark+space, one mark/space pair
per bit, footer), `decodeTechnibelAc` returns false regardless of the
content of the capture. -/
theorem technibel_claim_C1_decode_too_short (results : decode_results)
    (offset nbits : Nat) (strict : Bool) (tolerance : Nat)
    (h : results.rawbuf.length - offset <
      2 * nbits + kTechnibelAcOverhead) :
    (decodeTechnibelAc results offset nbits strict tolerance).1 = false := by
  unfold decodeTechnibelAc
  split_ifs with h1 h2
  · rfl
  · rfl
  · have hlen : (results.rawbuf.drop offset).length < 2 * nbits + 3 := by
      simp only [List.length_drop]
      simp only [kTechnibelAcOverhead] at h
      exact h
    rw [matchGeneric_none_of_short _ _ _ _ _ _ _ _ _ _ _ hlen]

/-- Witness for claim C1 at a concrete too-short capture. -/
theorem technibel_claim_C1_witness :
    (decodeTechnibelAc ⟨[], decode_type_t.UNKNOWN, 0, 0, 0, 0⟩
      1 56 true 25).1 = false :=
  technibel_claim_C1_decode_too_short _ 1 56 true 25 (by decide)

/-- Claim C7: on every failing decode (too short, strict-mode bit-count
mismatch, or timing mismatch) the results structure is returned
untouched; output fields are written only on the success path. -/
theorem technibel_claim_C7_decode_no_partial (results : decode_results)
    (offset nbits : Nat) (strict : Bool) (tolerance : Nat)
    (h : (decodeTechnibelAc results offset nbits strict tolerance).1 = false) :
    (decodeTechnibelAc results offset nbits strict tolerance).2 = results := by
  unfold decodeTechnibelAc at h ⊢
  split_ifs at h ⊢
  · rfl
  · rfl
  · split at h
    next heq =>
      rfl
    next v heq =>
      exact Bool.noConfusion h

/-- Witness for claim C7 at a concrete failing decode. -/
theorem technibel_claim_C7_witness :
    (decodeTechnibelAc ⟨[], decode_type_t.UNKNOWN, 0, 0, 0, 0⟩
      1 56 true 25).2 = ⟨[], decode_type_t.UNKNOWN, 0, 0, 0, 0⟩ :=
  technibel_claim_C7_decode_no_partial _ 1 56 true 25 (by decide)

/-- Claim C6: `setMode` falls back to Cool for any argument outside the
four defined modes; an accepted mode re-applies the fan-speed constraint
(after `setMode(Dry)` the fan reads Low) and re-applies the remembered
temperature and unit, so a valid mode switch leaves `getTemp` at the
value the last `setTemp` stored. -/
theorem technibel_claim_C6_setMode (ac : IRTechnibelAc) (m d : Nat)
    (u : Bool) :
    (¬(m = kTechnibelAcHeat ∨ m = kTechnibelAcFan ∨ m = kTechnibelAcDry ∨
        m = kTechnibelAcCool) → ac.setMode m = ac.setMode kTechnibelAcCool) ∧
    ((m = kTechnibelAcHeat ∨ m = kTechnibelAcFan ∨ m = kTechnibelAcDry ∨
        m = kTechnibelAcCool) →
      ((ac.setTemp d u).setMode m).getTemp = (ac.setTemp d u).getTemp) ∧
    (ac.setMode kTechnibelAcDry).getFan = kTechnibelAcFanLow := by
  refine ⟨fun h => ?_, fun h => ?_, ?_⟩
  · rw [IRTechnibelAc.setMode]
    rw [if_neg h]
  · simp only [IRTechnibelAc.setMode_closed, if_pos h]
    simp only [IRTechnibelAc.getTemp_setTemp, IRTechnibelAc.saved_temp_setFan,
      IRTechnibelAc.saved_units_setFan, IRTechnibelAc.saved_temp_setTemp,
      IRTechnibelAc.saved_units_setTemp]
    cases u <;>
      simp only [Bool.false_eq_true, if_false, if_true, kTechnibelAcTempMaxC,
        kTechnibelAcTempMinC, kTechnibelAcTempMaxF, kTechnibelAcTempMinF] <;>
      omega
  · simp only [IRTechnibelAc.setMode_closed, or_true, true_or, if_true]
    rw [IRTechnibelAc.getFan_setTemp, IRTechnibelAc.getFan_setFan]
    have hm1 : ({ ac with remote_state := (setBits ac.remote_state
        kTechnibelAcModeOffset kTechnibelAcModeSize kTechnibelAcDry) } :
        IRTechnibelAc).getMode = kTechnibelAcDry := by
      simp only [IRTechnibelAc.getMode]
      rw [GETBITS64_setBits_self]
      decide
    rw [if_pos hm1]

/-- Witness for claim C6: mode 7 (undefined) falls back to Cool, and a
valid mode switch to Heat preserves the previously stored temperature. -/
theorem technibel_claim_C6_witness :
    (IRTechnibelAc.setMode ⟨0, 20, false⟩ 7 =
      IRTechnibelAc.setMode ⟨0, 20, false⟩ kTechnibelAcCool) ∧
    ((IRTechnibelAc.setTemp ⟨0, 20, false⟩ 25 false).setMode
        kTechnibelAcHeat).getTemp =
      (IRTechnibelAc.setTemp ⟨0, 20, false⟩ 25 false).getTemp := by
  have h1 := technibel_claim_C6_setMode ⟨0, 20, false⟩ 7 25 false
  have h2 := technibel_claim_C6_setMode ⟨0, 20, false⟩ kTechnibelAcHeat 25
    false
  exact ⟨h1.1 (by decide), h2.2.1 (by decide)⟩

/-- Claim C10: the self-recursive `setFan` and `setMode` terminate on
every input and state — each makes at most one recursive call, whose
argument lands in a non-recursive branch — so both are total functions
equal to their one-step closed forms below. -/
theorem technibel_claim_C10_termination (ac : IRTechnibelAc)
    (speed mode : Nat) :
    ac.setFan speed = { ac with remote_state :=
      (setBits ac.remote_state kTechnibelAcFanOffset kTechnibelAcFanSize
        (if ac.getMode = kTechnibelAcDry ∧ speed ≠ kTechnibelAcFanLow then
          kTechnibelAcFanLow
         else if kTechnibelAcFanHigh < speed then kTechnibelAcFanHigh
         else if speed < kTechnibelAcFanLow then kTechnibelAcFanLow
         else speed)) } ∧
    ac.setMode mode =
      (let m := if mode = kTechnibelAcHeat ∨ mode = kTechnibelAcFan ∨
          mode = kTechnibelAcDry ∨ mode = kTechnibelAcCool then mode
        else kTechnibelAcCool
       let ac1 := { ac with remote_state := (setBits ac.remote_state
          kTechnibelAcModeOffset kTechnibelAcModeSize m) }
       let ac2 := ac1.setFan ac1.getFan
       ac2.setTemp ac2._saved_temp ac2._saved_temp_units) :=
  ⟨IRTechnibelAc.setFan_closed ac speed,
   IRTechnibelAc.setMode_closed ac mode⟩

/-! ## The temperature-range invariant (claim C8) -/

theorem IRTechnibelAc.getTemp_setPower (ac : IRTechnibelAc) (b : Bool) :
    (ac.setPower b).getTemp = ac.getTemp := by
  simp only [IRTechnibelAc.setPower, IRTechnibelAc.getTemp]
  rw [GETBITS64_setBit_of_ge _ _ _ _ _ (by decide)]

theorem IRTechnibelAc.getTemp_setSwing (ac : IRTechnibelAc) (b : Bool) :
    (ac.setSwing b).getTemp = ac.getTemp := by
  simp only [IRTechnibelAc.setSwing, IRTechnibelAc.getTemp]
  rw [GETBITS64_setBit_of_ge _ _ _ _ _ (by decide)]

theorem IRTechnibelAc.getTemp_setSleep (ac : IRTechnibelAc) (b : Bool) :
    (ac.setSleep b).getTemp = ac.getTemp := by
  simp only [IRTechnibelAc.setSleep, IRTechnibelAc.getTemp]
  rw [GETBITS64_setBit_of_ge _ _ _ _ _ (by decide)]

theorem IRTechnibelAc.getTemp_setTimerEnabled (ac : IRTechnibelAc)
    (b : Bool) : (ac.setTimerEnabled b).getTemp = ac.getTemp := by
  simp only [IRTechnibelAc.setTimerEnabled, IRTechnibelAc.getTemp]
  rw [GETBITS64_setBit_of_ge _ _ _ _ _ (by decide)]

theorem IRTechnibelAc.getTemp_setTimer (ac : IRTechnibelAc) (mins : Nat) :
    (ac.setTimer mins).getTemp = ac.getTemp := by
  simp only [IRTechnibelAc.setTimer, IRTechnibelAc.setTimerEnabled,
    IRTechnibelAc.getTemp]
  rw [GETBITS64_setBit_of_ge _ _ _ _ _ (by decide),
    GETBITS64_setBits_of_ge _ _ _ _ _ _ (by decide)]

/-- One accessor operation on the A/C object (spec §4.2): the setter
calls of the Field Accessors & Constraint Engine. -/
inductive AcOp where
  | power (b : Bool)
  | tempUnit (b : Bool)
  | temp (d : Nat) (u : Bool)
  | fan (s : Nat)
  | mode (m : Nat)
  | swing (b : Bool)
  | sleep (b : Bool)
  | timerEnabled (b : Bool)
  | timer (mins : Nat)

/-- Run one accessor operation. -/
def applyOp (ac : IRTechnibelAc) : AcOp → IRTechnibelAc
  | .power b => ac.setPower b
  | .tempUnit b => ac.setTempUnit b
  | .temp d u => ac.setTemp d u
  | .fan s => ac.setFan s
  | .mode m => ac.setMode m
  | .swing b => ac.setSwing b
  | .sleep b => ac.setSleep b
  | .timerEnabled b => ac.setTimerEnabled b
  | .timer mins => ac.setTimer mins

/-- Run a sequence of accessor operations, left to right. -/
def applyOps (ac : IRTechnibelAc) (ops : List AcOp) : IRTechnibelAc :=
  ops.foldl applyOp ac

/-- The stored temperature lies within the legal range of the
session-remembered unit (the unit most recently given to `setTemp`). -/
def tempInv (ac : IRTechnibelAc) : Prop :=
  (ac._saved_temp_units = false →
    kTechnibelAcTempMinC ≤ ac.getTemp ∧ ac.getTemp ≤ kTechnibelAcTempMaxC) ∧
  (ac._saved_temp_units = true →
    kTechnibelAcTempMinF ≤ ac.getTemp ∧ ac.getTemp ≤ kTechnibelAcTempMaxF)

theorem tempInv_setTemp (ac : IRTechnibelAc) (d : Nat) (u : Bool) :
    tempInv (ac.setTemp d u) := by
  unfold tempInv
  simp only [IRTechnibelAc.getTemp_setTemp, IRTechnibelAc.saved_units_setTemp]
  cases u <;>
    refine ⟨fun hx => ?_, fun hx => ?_⟩ <;>
    simp only [Bool.false_eq_true, Bool.true_eq_false, if_false, if_true,
      kTechnibelAcTempMaxC, kTechnibelAcTempMinC, kTechnibelAcTempMaxF,
      kTechnibelAcTempMinF] at hx ⊢ <;>
    omega

theorem tempInv_setMode (ac : IRTechnibelAc) (m : Nat) :
    tempInv (ac.setMode m) := by
  rw [IRTechnibelAc.setMode_closed]
  exact tempInv_setTemp _ _ _

theorem tempInv_applyOp (ac : IRTechnibelAc) (op : AcOp)
    (h : tempInv ac) : tempInv (applyOp ac op) := by
  cases op with
  | power b =>
    unfold tempInv at h ⊢
    simpa only [applyOp, IRTechnibelAc.getTemp_setPower] using h
  | tempUnit b =>
    unfold tempInv at h ⊢
    simpa only [applyOp, IRTechnibelAc.getTemp_setTempUnit] using h
  | temp d u => exact tempInv_setTemp ac d u
  | fan s =>
    unfold tempInv at h ⊢
    simpa only [applyOp, IRTechnibelAc.getTemp_setFan,
      IRTechnibelAc.saved_units_setFan] using h
  | mode m => exact tempInv_setMode ac m
  | swing b =>
    unfold tempInv at h ⊢
    simpa only [applyOp, IRTechnibelAc.getTemp_setSwing] using h
  | sleep b =>
    unfold tempInv at h ⊢
    simpa only [applyOp, IRTechnibelAc.getTemp_setSleep] using h
  | timerEnabled b =>
    unfold tempInv at h ⊢
    simpa only [applyOp, IRTechnibelAc.getTemp_setTimerEnabled] using h
  | timer mins =>
    unfold tempInv at h ⊢
    simpa only [applyOp, IRTechnibelAc.getTemp_setTimer] using h

theorem tempInv_stateReset (ac : IRTechnibelAc) :
    tempInv ac.stateReset := by
  simp only [IRTechnibelAc.stateReset]
  exact tempInv_applyOp _ (.sleep false) (tempInv_applyOp _ (.swing false)
    (tempInv_applyOp _ (.fan kTechnibelAcFanLow) (tempInv_setMode _ _)))

/-- The reset state, evaluated: temperature 20 (offset 24) and fan Low
(offset 16), everything else zero. -/
theorem IRTechnibelAc.mkDefault_eval :
    IRTechnibelAc.mkDefault = ⟨20 * 2 ^ 24 + 2 ^ 16, 20, false⟩ := by
  simp only [IRTechnibelAc.mkDefault, IRTechnibelAc.stateReset,
    IRTechnibelAc.setMode_closed, IRTechnibelAc.setFan_closed]
  decide

/-- Claim C8 counterexample: from the reset state, the single accessor
call `setTempUnit(true)` flips the unit bit to Fahrenheit without
rewriting the temperature, leaving the stored temperature 20 outside the
Fahrenheit range [61, 86] — so the invariant as claimed (range of the
currently active unit, including after `setTempUnit`) fails. -/
theorem technibel_claim_C8_counterexample :
    (applyOps IRTechnibelAc.mkDefault [AcOp.tempUnit true]).getTempUnit =
      true ∧
    (applyOps IRTechnibelAc.mkDefault [AcOp.tempUnit true]).getTemp = 20 ∧
    ¬(kTechnibelAcTempMinF ≤
      (applyOps IRTechnibelAc.mkDefault [AcOp.tempUnit true]).getTemp) := by
  rw [IRTechnibelAc.mkDefault_eval]
  decide

/-- Claim C8 (amended): after every sequence of accessor operations
starting from the reset state, the temperature stored in the packed
record lies within the legal range of the session-remembered unit — the
unit most recently passed to `setTemp` — i.e. within [16,30] when that
unit is Celsius and within [61,86] when it is Fahrenheit (hence always
within a legal range of one of the units).  A direct `setTempUnit` call
changes the active unit bit without rewriting the temperature, so the
range is tied to the remembered unit, not to the current unit bit. -/
theorem technibel_claim_C8_temp_invariant (ops : List AcOp) :
    tempInv (applyOps IRTechnibelAc.mkDefault ops) := by
  suffices h : ∀ ac : IRTechnibelAc, tempInv ac →
      tempInv (applyOps ac ops) from
    h _ (tempInv_stateReset _)
  induction ops with
  | nil => exact fun ac h => h
  | cons op rest ih => exact fun ac h => ih _ (tempInv_applyOp ac op h)

/-- Witness for claim C8 at the empty operation sequence: the reset
state remembers Celsius and its stored temperature obeys [16, 30]. -/
theorem technibel_claim_C8_witness :
    kTechnibelAcTempMinC ≤ IRTechnibelAc.mkDefault.getTemp ∧
    IRTechnibelAc.mkDefault.getTemp ≤ kTechnibelAcTempMaxC := by
  have h := technibel_claim_C8_temp_invariant []
  exact h.1 (by rw [IRTechnibelAc.mkDefault_eval]; rfl)
